import Mathlib

/-!
Verification development for the Injective wallet MCP server
(source file: src/index.ts).

The development shallowly embeds the token-swap execution path:
the denomination normalizer (normalizeDenom, lines 756-769), the
market resolver loop (lines 546-565), the order-book pricer
(lines 610-631), the unit converter (lines 650-659), the simulator
(simulateSwap, lines 774-796) and the swap orchestrator
(swapToken, lines 459-751), together with the tool-call validation
layer (SwapTokenSchema, lines 50-55, and the swap-token branch of the
CallToolRequest handler, lines 861-898).

Modelling conventions:
 * JavaScript numbers handled by the BigNumberInBase decimal library
   are modelled as exact rationals; division by the library is modelled
   as exact rational division.  The one place where the source performs
   arithmetic in native IEEE-754 binary64 before the value reaches the
   decimal library - the slippage factor expressions
   (1 + slippage / 100) and (1 - slippage / 100) on lines 621 and 630 -
   is given a faithful binary64 model (f64round, buyFactorJS,
   sellFactorJS and the pricer priceForJS below); the claims about the
   pricing arithmetic (C3, C5, C9) are stated against that faithful
   model, while the orchestrator-level claims depend on the pricer only
   through whether a price exists, on which the exact-rational
   idealization priceFor and the binary64 pricer priceForJS coincide
   (priceForJS_eq_none_iff).
 * Every effectful step of swapToken (SDK component availability check,
   wallet lookup, market-list fetch, order-book fetch, order-message
   construction, broadcast) is modelled by a field of SwapEnv recording
   that step's outcome; a thrown exception is modelled by none / false.
   The outer try/catch of swapToken (lines 736-750) routes every failure
   to simulateSwap, so the embedded swapToken is a total function into
   SwapResult: no error escapes the orchestrator boundary.
 * simulateSwap calls Math.random for its mock price and mock
   transaction hash; the randomness is injected through the mockPrice
   and mockTxHash fields of SwapEnv (the fields of the result relevant
   to the claims - orderSide, marketId, isSimulated - do not depend
   on it).
 * The ad-hoc schema probing of remote responses (baseToken vs
   baseDenom vs baseAsset, price vs p, buys vs bids, ...) is an
   adapter concern; Market, OrderbookEntry and Orderbook model the
   canonical shape after extraction, with the decimal fields already
   defaulted to 18 where the upstream record omits them (lines 640-648).
-/

/-- JavaScript String.prototype.startsWith, modelled on the character
sequence of the string (the denominations handled by the server are
plain Unicode strings, for which the byte-level and character-level
tests agree). -/
def strStartsWith (s p : String) : Bool :=
  p.toList.isPrefixOf s.toList

/-- JavaScript String.prototype.toUpperCase, modelled by the
character-wise uppercase map (the only symbol the normalizer compares
against, INJ, is ASCII, where the two agree). -/
def strToUpper (s : String) : String :=
  ⟨s.toList.map Char.toUpper⟩

/-- Token denomination normalizer, from normalizeDenom
(src/index.ts lines 756-769): structured prefixes are returned
unchanged, the native symbol is lowercased, anything else is returned
as is. -/
def normalizeDenom (denom : String) : String :=
  if strStartsWith denom "factory/" || strStartsWith denom "ibc/" then denom
  else if strToUpper denom = "INJ" then "inj"
  else denom

/-- A spot market in the canonical shape the orchestrator extracts from
the remote market record (src/index.ts lines 567-575 and 640-648). -/
structure Market where
  marketId : String
  baseDenom : String
  quoteDenom : String
  baseDecimals : ℕ
  quoteDecimals : ℕ
  deriving DecidableEq, Repr

/-- One order-book level in the canonical shape extracted from the
remote order-book response (price field of sells[0] / buys[0],
src/index.ts lines 620 and 629). -/
structure OrderbookEntry where
  price : ℚ
  quantity : ℚ
  deriving DecidableEq, Repr

/-- An order-book snapshot: buys (bids) and sells (asks), in the order
delivered by the indexer (src/index.ts lines 584-604). -/
structure Orderbook where
  buys : List OrderbookEntry
  sells : List OrderbookEntry
  deriving DecidableEq, Repr

/-- The match test of the market-resolver loop (src/index.ts
lines 555-556): the market's base/quote pair equals the normalized
from/to pair in either orientation. -/
def marketMatches (m : Market) (nFrom nTo : String) : Bool :=
  (m.baseDenom == nFrom && m.quoteDenom == nTo) ||
    (m.baseDenom == nTo && m.quoteDenom == nFrom)

/-- The market-resolver loop (src/index.ts lines 547-560): scan the
fetched market list in order and keep the first match. -/
def findMarket (markets : List Market) (nFrom nTo : String) : Option Market :=
  markets.find? (fun m => marketMatches m nFrom nTo)

/-- Trade direction (src/index.ts line 578): the swap is a BUY of the
market's base asset exactly when the normalized destination
denomination is the base denomination. -/
def swapIsBuy (m : Market) (nTo : String) : Bool :=
  m.baseDenom == nTo

/-- The order-book pricer (src/index.ts lines 610-631) under the
decimal-library-as-exact-rational idealization of the slippage factor:
for a BUY take the first ask and add the slippage percentage, for a
SELL take the first bid and subtract it; an empty relevant side yields
none (the source returns the simulated result there).  The source
evaluates the factor (1 plus or minus slippage / 100) in native binary64 before it
reaches the decimal library; the faithful pricer with that evaluation
made explicit is priceForJS below, which agrees with this one on
whether a price exists (priceForJS_eq_none_iff) - the only aspect the
orchestrator embedding swapToken depends on. -/
def priceFor (isBuy : Bool) (ob : Orderbook) (slippage : ℚ) : Option ℚ :=
  if isBuy then
    match ob.sells with
    | [] => none
    | s :: _ => some (s.price * (1 + slippage / 100))
  else
    match ob.buys with
    | [] => none
    | b :: _ => some (b.price * (1 - slippage / 100))

/-- The unit converter (src/index.ts lines 650-659): a BUY spends the
quote asset, so the base-asset quantity is the scaled quote amount
divided by the price and rescaled across the precision difference; a
SELL's quantity is the scaled base amount. The exponent difference
baseDecimals - quoteDecimals may be negative, hence the integer
exponent. -/
def quantityFor (isBuy : Bool) (amount price : ℚ) (baseDecimals quoteDecimals : ℕ) : ℚ :=
  if isBuy then
    amount * 10 ^ quoteDecimals / price * (10 : ℚ) ^ ((baseDecimals : ℤ) - quoteDecimals)
  else
    amount * 10 ^ baseDecimals

/-- The record returned by both the real path (src/index.ts
lines 724-734) and the simulator (lines 785-795). -/
structure SwapResult where
  fromDenom : String
  toDenom : String
  inputAmount : ℚ
  estimatedOutputAmount : ℚ
  executionPrice : ℚ
  txHash : String
  marketId : String
  orderSide : String
  isSimulated : Bool
  deriving DecidableEq, Repr

/-- The simulator simulateSwap (src/index.ts lines 774-796), with the
Math.random draws injected as mockPrice and mockTxHash.  The marketId
and orderSide fields are the literal constants of lines 792-793. -/
def simulateSwap (mockPrice : ℚ) (mockTxHash : String)
    (fromDenom toDenom : String) (amount slippage : ℚ) : SwapResult :=
  { fromDenom := fromDenom
    toDenom := toDenom
    inputAmount := amount
    estimatedOutputAmount := amount * mockPrice * (1 - slippage / 100)
    executionPrice := mockPrice
    txHash := mockTxHash
    marketId := "mock-market-id"
    orderSide := "buy"
    isSimulated := true }

/-- Outcomes of the effectful steps of one swapToken run.  A none /
false value models the corresponding remote call throwing (or the
check failing); the source converts each of these into a call to
simulateSwap, either directly or through the outer catch of
lines 736-750. -/
structure SwapEnv where
  /-- all dynamically probed SDK components resolved (line 486). -/
  sdkAvailable : Bool
  /-- the wallet file exists (line 493); if not, the thrown error is
  caught by the outer catch and becomes a simulation. -/
  walletExists : Bool
  /-- outcome of fetchMarkets plus shape extraction (lines 516-533):
  none models a thrown fetch error, some ms the extracted list. -/
  markets : Option (List Market)
  /-- outcome of fetchOrderbook plus shape extraction (lines 587-608)
  for the resolved market: none models a thrown fetch error. -/
  orderbook : Option Orderbook
  /-- order-message construction succeeded (lines 683-695). -/
  orderConstructed : Bool
  /-- outcome of the broadcast (lines 701-714): some txHash on
  success, none when the broadcast throws. -/
  broadcast : Option String
  /-- injected Math.random mock price for simulateSwap (line 778). -/
  mockPrice : ℚ
  /-- injected mock transaction hash for simulateSwap (line 782). -/
  mockTxHash : String

/-- The real-path result record (src/index.ts lines 724-734). -/
def realResult (fromDenom toDenom : String) (amount : ℚ) (m : Market)
    (isBuy : Bool) (price quantity : ℚ) (tx : String) : SwapResult :=
  { fromDenom := fromDenom
    toDenom := toDenom
    inputAmount := amount
    estimatedOutputAmount :=
      if isBuy then quantity / 10 ^ m.baseDecimals
      else quantity * price / 10 ^ m.quoteDecimals
    executionPrice := price / (10 : ℚ) ^ ((m.quoteDecimals : ℤ) - m.baseDecimals)
    txHash := tx
    marketId := m.marketId
    orderSide := if isBuy then "buy" else "sell"
    isSimulated := false }

/-- The swap orchestrator swapToken (src/index.ts lines 459-751).
Every failure branch returns the simulator's result, exactly as the
source does (directly at lines 489, 532, 537, 564, 607, 617, 626, 694
and 713, and through the outer catch at line 749 for the wallet
check); the function is total, so no error escapes the orchestrator
boundary. -/
def swapToken (env : SwapEnv) (fromDenom toDenom : String)
    (amount slippage : ℚ) : SwapResult :=
  let sim := simulateSwap env.mockPrice env.mockTxHash fromDenom toDenom amount slippage
  if env.sdkAvailable = false then sim
  else if env.walletExists = false then sim
  else
    match env.markets with
    | none => sim
    | some spotMarkets =>
      if spotMarkets.length = 0 then sim
      else
        let nFrom := normalizeDenom fromDenom
        let nTo := normalizeDenom toDenom
        match findMarket spotMarkets nFrom nTo with
        | none => sim
        | some market =>
          let isBuy := swapIsBuy market nTo
          match env.orderbook with
          | none => sim
          | some ob =>
            match priceFor isBuy ob slippage with
            | none => sim
            | some price =>
              let quantity :=
                quantityFor isBuy amount price market.baseDecimals market.quoteDecimals
              if env.orderConstructed = false then sim
              else
                match env.broadcast with
                | none => sim
                | some tx => realResult fromDenom toDenom amount market isBuy price quantity tx

/-- Arguments of the swap-token tool before validation
(SwapTokenSchema, src/index.ts lines 50-55); slippage is optional and
defaults to 1. -/
structure SwapArgs where
  fromDenom : String
  toDenom : String
  amount : ℚ
  slippage : Option ℚ

/-- Validated swap-token arguments. -/
structure ParsedSwapArgs where
  fromDenom : String
  toDenom : String
  amount : ℚ
  slippage : ℚ

/-- The Zod validation of SwapTokenSchema (src/index.ts lines 50-55):
nonempty denomination strings, strictly positive amount, slippage
within [0, 100] with default 1.  Zod aggregates all issues into one
thrown error; the model reports the first failing check, which is
equivalent for the claims (an error is thrown iff some check fails). -/
def parseSwapArgs (a : SwapArgs) : Except String ParsedSwapArgs :=
  if a.fromDenom.length < 1 then .error "fromDenom: String must contain at least 1 character"
  else if a.toDenom.length < 1 then .error "toDenom: String must contain at least 1 character"
  else if a.amount ≤ 0 then .error "amount: Number must be greater than 0"
  else
    match a.slippage with
    | none => .ok ⟨a.fromDenom, a.toDenom, a.amount, 1⟩
    | some s =>
      if s < 0 then .error "slippage: Number must be greater than or equal to 0"
      else if 100 < s then .error "slippage: Number must be less than or equal to 100"
      else .ok ⟨a.fromDenom, a.toDenom, a.amount, s⟩

/-- Outcome of one swap-token tool call: either the validation error
response built from the caught ZodError (src/index.ts lines 886-898),
or the result of swapToken. -/
inductive ToolOutcome where
  | validationError : String → ToolOutcome
  | swapResult : SwapResult → ToolOutcome
  deriving DecidableEq

/-- The swap-token branch of the CallToolRequest handler (src/index.ts
lines 861-880): parse the arguments with SwapTokenSchema, then run
swapToken.  Line 863 re-reads the parsed slippage through a JavaScript
truthiness test, so a parsed slippage of 0 is replaced by 1. -/
def handleSwapTool (env : SwapEnv) (a : SwapArgs) : ToolOutcome :=
  match parseSwapArgs a with
  | .error e => .validationError e
  | .ok p =>
      .swapResult (swapToken env p.fromDenom p.toDenom p.amount
        (if p.slippage = 0 then 1 else p.slippage))

/-! ### Stage-failure predicates

Each predicate says that one orchestration run reaches stage k of the
state machine of the spec (stages 2-5: market resolution, order-book
fetch, pricing, order construction / broadcast) and fails there: the
stages before k succeed and the outcome recorded for stage k is a
failure. -/

/-- Stage 2 failure: the market-list fetch throws, or the fetched list
is empty or contains no market for the normalized pair
(src/index.ts lines 516-565). -/
def stage2Failure (env : SwapEnv) (f t : String) : Prop :=
  env.sdkAvailable = true ∧ env.walletExists = true ∧
    (env.markets = none ∨
      ∃ ms, env.markets = some ms ∧
        findMarket ms (normalizeDenom f) (normalizeDenom t) = none)

/-- Stage 3 failure: a market was resolved but the order-book fetch
throws (src/index.ts lines 587-608). -/
def stage3Failure (env : SwapEnv) (f t : String) : Prop :=
  env.sdkAvailable = true ∧ env.walletExists = true ∧
    (∃ ms m, env.markets = some ms ∧
      findMarket ms (normalizeDenom f) (normalizeDenom t) = some m) ∧
    env.orderbook = none

/-- Stage 4 failure: the order book was fetched but the side relevant
to the trade direction is empty (src/index.ts lines 610-631). -/
def stage4Failure (env : SwapEnv) (f t : String) : Prop :=
  env.sdkAvailable = true ∧ env.walletExists = true ∧
    ∃ ms m ob, env.markets = some ms ∧
      findMarket ms (normalizeDenom f) (normalizeDenom t) = some m ∧
      env.orderbook = some ob ∧
      ((swapIsBuy m (normalizeDenom t) = true ∧ ob.sells = []) ∨
        (swapIsBuy m (normalizeDenom t) = false ∧ ob.buys = []))

/-- Stage 5 failure: pricing succeeded but the order message cannot be
constructed or the broadcast throws (src/index.ts lines 683-714). -/
def stage5Failure (env : SwapEnv) (f t : String) : Prop :=
  env.sdkAvailable = true ∧ env.walletExists = true ∧
    (∃ ms m ob, env.markets = some ms ∧
      findMarket ms (normalizeDenom f) (normalizeDenom t) = some m ∧
      env.orderbook = some ob ∧
      ((swapIsBuy m (normalizeDenom t) = true ∧ ob.sells ≠ []) ∨
        (swapIsBuy m (normalizeDenom t) = false ∧ ob.buys ≠ []))) ∧
    (env.orderConstructed = false ∨ env.broadcast = none)

/-! ### Helper lemmas about the stages -/

lemma priceFor_eq_none_iff (b : Bool) (ob : Orderbook) (s : ℚ) :
    priceFor b ob s = none ↔ (if b then ob.sells = [] else ob.buys = []) := by
  cases b <;> simp only [priceFor, Bool.false_eq_true, if_false, if_true]
  · cases h : ob.buys <;> simp
  · cases h : ob.sells <;> simp

lemma findMarket_nil (nFrom nTo : String) : findMarket [] nFrom nTo = none := rfl

lemma findMarket_ne_nil {ms : List Market} {nFrom nTo : String} {m : Market}
    (h : findMarket ms nFrom nTo = some m) : ms ≠ [] := by
  rintro rfl
  simp [findMarket] at h

/-- Full case analysis of one swapToken run: the result is either
exactly the simulator's output, or the run reaches the broadcast with
every stage succeeding and the result is the real-path record. -/
lemma swapToken_spec (env : SwapEnv) (f t : String) (a s : ℚ) :
    swapToken env f t a s = simulateSwap env.mockPrice env.mockTxHash f t a s ∨
    (env.sdkAvailable = true ∧ env.walletExists = true ∧ env.orderConstructed = true ∧
      ∃ ms m ob p tx,
        env.markets = some ms ∧
        findMarket ms (normalizeDenom f) (normalizeDenom t) = some m ∧
        env.orderbook = some ob ∧
        priceFor (swapIsBuy m (normalizeDenom t)) ob s = some p ∧
        env.broadcast = some tx ∧
        swapToken env f t a s =
          realResult f t a m (swapIsBuy m (normalizeDenom t)) p
            (quantityFor (swapIsBuy m (normalizeDenom t)) a p m.baseDecimals m.quoteDecimals)
            tx) := by
  unfold swapToken
  cases hsdk : env.sdkAvailable with
  | false => simp
  | true =>
    cases hw : env.walletExists with
    | false => simp
    | true =>
      simp only [Bool.true_eq_false, if_false]
      cases hms : env.markets with
      | none => simp
      | some ms =>
        by_cases hlen : ms.length = 0
        · simp [hlen]
        · simp only [hlen, if_false]
          cases hfind : findMarket ms (normalizeDenom f) (normalizeDenom t) with
          | none => simp [hfind]
          | some m =>
            cases hob : env.orderbook with
            | none => simp [hfind, hob]
            | some ob =>
              cases hp : priceFor (swapIsBuy m (normalizeDenom t)) ob s with
              | none => simp [hfind, hob, hp]
              | some p =>
                cases hc : env.orderConstructed with
                | false => simp [hfind, hob, hp, hc]
                | true =>
                  cases hb : env.broadcast with
                  | none => simp [hfind, hob, hp, hc, hb]
                  | some tx =>
                    right
                    refine ⟨?_, ?_, ?_, ms, m, ob, p, tx, ?_, ?_, ?_, ?_, ?_, ?_⟩ <;>
                      first
                        | trivial
                        | exact hfind
                        | exact hp
                        | simp [hfind, hob, hp, hc, hb]

/-- Converse direction: when every stage succeeds, swapToken returns
exactly the real-path record for the resolved market, price and
quantity. -/
lemma swapToken_real_of (env : SwapEnv) (f t : String) (a s : ℚ)
    (ms : List Market) (m : Market) (ob : Orderbook) (p : ℚ) (tx : String)
    (hsdk : env.sdkAvailable = true) (hw : env.walletExists = true)
    (hms : env.markets = some ms)
    (hfind : findMarket ms (normalizeDenom f) (normalizeDenom t) = some m)
    (hob : env.orderbook = some ob)
    (hp : priceFor (swapIsBuy m (normalizeDenom t)) ob s = some p)
    (hc : env.orderConstructed = true)
    (hb : env.broadcast = some tx) :
    swapToken env f t a s =
      realResult f t a m (swapIsBuy m (normalizeDenom t)) p
        (quantityFor (swapIsBuy m (normalizeDenom t)) a p m.baseDecimals m.quoteDecimals)
        tx := by
  have hnil : ms ≠ [] := findMarket_ne_nil hfind
  have hlen : ¬ ms.length = 0 := by simpa [List.length_eq_zero] using hnil
  unfold swapToken
  rw [hsdk, hw, hms]
  simp only [Bool.true_eq_false, if_false, hlen, hfind, hob, hp, hc, hb]

/-- The simulator result is always flagged as simulated. -/
lemma simulateSwap_isSimulated (mp : ℚ) (mtx f t : String) (a s : ℚ) :
    (simulateSwap mp mtx f t a s).isSimulated = true := rfl

/-! ### Claim theorems -/

/-- C8: the denomination normalizer is idempotent: for every
denomination string d, normalize (normalize d) = normalize d,
including the factory/ and ibc/ prefixed forms (returned unchanged),
the native symbol in any case (mapped to the canonical lowercase inj),
and arbitrary other strings (returned unchanged). -/
theorem c8_normalize_idempotent (d : String) :
    normalizeDenom (normalizeDenom d) = normalizeDenom d := by
  by_cases h1 : (strStartsWith d "factory/" || strStartsWith d "ibc/") = true
  · have hd : normalizeDenom d = d := by simp [normalizeDenom, h1]
    rw [hd]
    exact hd
  · by_cases h2 : strToUpper d = "INJ"
    · have hd : normalizeDenom d = "inj" := by simp [normalizeDenom, h1, h2]
      rw [hd]
      decide
    · have hd : normalizeDenom d = d := by simp [normalizeDenom, h1, h2]
      rw [hd]
      exact hd

/-- C6: the market resolver scans the list in order, matches a market
exactly when the unordered pair of its base and quote denominations
equals the unordered pair of the normalized source and destination
denominations, returns the first matching market even when later
matches exist, and the direction is BUY exactly when the normalized
destination equals the matched market's base denomination. -/
theorem c6_market_resolver (pre post : List Market) (m : Market) (f t : String)
    (hpre : ∀ m' ∈ pre, marketMatches m' f t = false)
    (hm : marketMatches m f t = true) :
    findMarket (pre ++ m :: post) f t = some m ∧
      (∀ m' : Market,
        marketMatches m' f t = true ↔
          ({m'.baseDenom, m'.quoteDenom} : Multiset String) = {f, t}) ∧
      (swapIsBuy m t = true ↔ m.baseDenom = t) := by
  refine ⟨?_, ?_, ?_⟩
  · induction pre with
    | nil => simp [findMarket, hm]
    | cons a as ih =>
      have ha : marketMatches a f t = false := hpre a (by simp)
      have ih' := ih (fun m' hm' => hpre m' (by simp [hm']))
      simpa [findMarket, List.find?_cons, ha] using ih'
  · intro m'
    have hcases : marketMatches m' f t = true ↔
        (m'.baseDenom = f ∧ m'.quoteDenom = t) ∨
          (m'.baseDenom = t ∧ m'.quoteDenom = f) := by
      simp [marketMatches]
    rw [hcases]
    constructor
    · rintro (⟨h1, h2⟩ | ⟨h1, h2⟩)
      · rw [h1, h2]
      · rw [h1, h2]
        exact Multiset.cons_swap t f {}
    · intro h
      rcases Multiset.cons_eq_cons.mp h with ⟨hb, hq⟩ | ⟨_, cs, hq, ht⟩
      · exact Or.inl ⟨hb, Multiset.singleton_inj.mp hq⟩
      · have hq' := (Multiset.singleton_eq_cons_iff cs).mp hq
        have ht' := (Multiset.singleton_eq_cons_iff cs).mp ht
        exact Or.inr ⟨ht'.1.symm, hq'.1⟩
  · simp [swapIsBuy]

/-- Witness for C6: on a concrete list holding one non-matching
market, the matching market, and a later duplicate match, the resolver
returns the middle (first matching) market. -/
theorem c6_market_resolver_witness :
    findMarket
        [⟨"m0", "atom", "usdt", 6, 6⟩, ⟨"m1", "inj", "usdt", 18, 6⟩,
          ⟨"m2", "inj", "usdt", 18, 6⟩]
        "usdt" "inj" = some ⟨"m1", "inj", "usdt", 18, 6⟩ ∧
      swapIsBuy ⟨"m1", "inj", "usdt", 18, 6⟩ "inj" = true :=
  ⟨(c6_market_resolver [⟨"m0", "atom", "usdt", 6, 6⟩] [⟨"m2", "inj", "usdt", 18, 6⟩]
      ⟨"m1", "inj", "usdt", 18, 6⟩ "usdt" "inj" (by decide) (by decide)).1,
    by decide⟩

/-- C4: the unit converter computes, for a BUY, the scaled quote
amount divided by the execution price and rescaled by the precision
difference, and for a SELL the scaled base amount; at humanAmount 100,
executionPrice 2, basePrecision 18, quotePrecision 6 the BUY quantity
is 100 times ten to the sixth, halved, times ten to the twelfth. -/
theorem c4_unit_converter (a p : ℚ) (bd qd : ℕ) (ha : 0 < a) (hp : 0 < p) :
    quantityFor true a p bd qd =
        a * 10 ^ qd / p * (10 : ℚ) ^ ((bd : ℤ) - qd) ∧
      quantityFor false a p bd qd = a * 10 ^ bd ∧
      quantityFor true 100 2 18 6 = 100 * 10 ^ 6 / 2 * 10 ^ 12 ∧
      quantityFor true 100 2 18 6 = 5 * 10 ^ 19 := by
  refine ⟨rfl, rfl, ?_, ?_⟩ <;> norm_num [quantityFor]

/-- Witness for C4 at humanAmount 100 and executionPrice 2. -/
theorem c4_unit_converter_witness :
    quantityFor true 100 2 18 6 = 100 * 10 ^ 6 / 2 * 10 ^ 12 :=
  (c4_unit_converter 100 2 18 6 (by norm_num) (by norm_num)).2.2.1

/-- C1: for a request that passed input validation, a failure injected
at any single one of stages 2-5 (market-list fetch or match,
order-book fetch, pricing on an empty relevant book side, order
construction or broadcast) makes swapToken return a result flagged
isSimulated = true; and since the embedded swapToken is a total
function into SwapResult (the outer catch of lines 736-750 converts
every stage error into the simulated result), no stage error
propagates past the swapToken boundary. -/
theorem c1_stage_failures_simulate (env : SwapEnv) (f t : String) (a s : ℚ)
    (ha : 0 < a) (hs0 : 0 ≤ s) (hs1 : s ≤ 100)
    (h : stage2Failure env f t ∨ stage3Failure env f t ∨
      stage4Failure env f t ∨ stage5Failure env f t) :
    (swapToken env f t a s).isSimulated = true := by
  rcases swapToken_spec env f t a s with hsim | ⟨hsdk, hw, hc, ms, m, ob, p, tx,
    hms, hfind, hob, hp, hb, _⟩
  · rw [hsim]; rfl
  · exfalso
    rcases h with ⟨_, _, h2⟩ | ⟨_, _, _, h3⟩ | ⟨_, _, ms', m', ob', hms', hfind', hob', hside⟩ |
      ⟨_, _, _, h5⟩
    · rcases h2 with hnone | ⟨ms', hms', hfind'⟩
      · rw [hms] at hnone; cases hnone
      · rw [hms] at hms'
        obtain rfl : ms = ms' := by injection hms'
        rw [hfind] at hfind'; cases hfind'
    · rw [hob] at h3; cases h3
    · rw [hms] at hms'
      obtain rfl : ms = ms' := by injection hms'
      rw [hfind] at hfind'
      obtain rfl : m = m' := by injection hfind'
      rw [hob] at hob'
      obtain rfl : ob = ob' := by injection hob'
      have hnone : priceFor (swapIsBuy m (normalizeDenom t)) ob s = none := by
        rcases hside with ⟨hdir, hempty⟩ | ⟨hdir, hempty⟩ <;>
          simp [priceFor_eq_none_iff, hdir, hempty]
      rw [hnone] at hp; cases hp
    · rcases h5 with hcf | hbn
      · rw [hc] at hcf; cases hcf
      · rw [hb] at hbn; cases hbn

/-- Witness for C1: a concrete run where the order-book fetch throws
(stage 3) returns a simulated result. -/
theorem c1_stage_failures_simulate_witness :
    (swapToken
        ⟨true, true, some [⟨"m1", "inj", "usdt", 18, 6⟩], none, true, some "0xabc",
          3, "0xmock"⟩
        "usdt" "inj" 100 1).isSimulated = true :=
  c1_stage_failures_simulate
    ⟨true, true, some [⟨"m1", "inj", "usdt", 18, 6⟩], none, true, some "0xabc",
      3, "0xmock"⟩
    "usdt" "inj" 100 1 (by norm_num) (by norm_num) (by norm_num)
    (Or.inr (Or.inl ⟨rfl, rfl,
      ⟨[⟨"m1", "inj", "usdt", 18, 6⟩], ⟨"m1", "inj", "usdt", 18, 6⟩, rfl, by decide⟩,
      rfl⟩))

/-- C2: whenever the run reaches the broadcast and the broadcaster
returns a transaction hash, the result is the real one: it is not
flagged as simulated and it carries exactly that transaction hash. -/
theorem c2_real_after_broadcast (env : SwapEnv) (f t : String) (a s : ℚ)
    (ms : List Market) (m : Market) (ob : Orderbook) (p : ℚ) (tx : String)
    (hsdk : env.sdkAvailable = true) (hw : env.walletExists = true)
    (hms : env.markets = some ms)
    (hfind : findMarket ms (normalizeDenom f) (normalizeDenom t) = some m)
    (hob : env.orderbook = some ob)
    (hp : priceFor (swapIsBuy m (normalizeDenom t)) ob s = some p)
    (hc : env.orderConstructed = true)
    (hb : env.broadcast = some tx) :
    (swapToken env f t a s).isSimulated = false ∧
      (swapToken env f t a s).txHash = tx := by
  rw [swapToken_real_of env f t a s ms m ob p tx hsdk hw hms hfind hob hp hc hb]
  exact ⟨rfl, rfl⟩

/-- Witness for C2: a concrete fully successful BUY run returns the
broadcast transaction hash and is not simulated. -/
theorem c2_real_after_broadcast_witness :
    (swapToken
        ⟨true, true, some [⟨"m1", "inj", "usdt", 18, 6⟩], some ⟨[⟨4, 1⟩], [⟨5, 2⟩]⟩,
          true, some "0xabc", 3, "0xmock"⟩
        "usdt" "inj" 100 1).isSimulated = false ∧
      (swapToken
        ⟨true, true, some [⟨"m1", "inj", "usdt", 18, 6⟩], some ⟨[⟨4, 1⟩], [⟨5, 2⟩]⟩,
          true, some "0xabc", 3, "0xmock"⟩
        "usdt" "inj" 100 1).txHash = "0xabc" :=
  c2_real_after_broadcast
    ⟨true, true, some [⟨"m1", "inj", "usdt", 18, 6⟩], some ⟨[⟨4, 1⟩], [⟨5, 2⟩]⟩,
      true, some "0xabc", 3, "0xmock"⟩
    "usdt" "inj" 100 1 [⟨"m1", "inj", "usdt", 18, 6⟩] ⟨"m1", "inj", "usdt", 18, 6⟩
    ⟨[⟨4, 1⟩], [⟨5, 2⟩]⟩ (5 * (1 + 1 / 100)) "0xabc"
    rfl rfl rfl (by decide) rfl
    (by simp [priceFor, swapIsBuy, show normalizeDenom "inj" = "inj" from by decide])
    rfl rfl

/-- C10: every simulated result carries the constant order side buy
and the constant market id mock-market-id, whatever the requested pair
is; in particular an orchestration run whose resolved direction is a
SELL of the market's base asset but which falls back at the pricing
stage still reports order side buy and the mock market id. -/
theorem c10_simulator_constants :
    (∀ (mp : ℚ) (mtx f t : String) (a s : ℚ),
      (simulateSwap mp mtx f t a s).orderSide = "buy" ∧
        (simulateSwap mp mtx f t a s).marketId = "mock-market-id" ∧
        (simulateSwap mp mtx f t a s).isSimulated = true) ∧
    (∀ (env : SwapEnv) (f t : String) (a s : ℚ),
      stage4Failure env f t →
        (swapToken env f t a s).orderSide = "buy" ∧
          (swapToken env f t a s).marketId = "mock-market-id") := by
  refine ⟨fun mp mtx f t a s => ⟨rfl, rfl, rfl⟩, ?_⟩
  intro env f t a s h4
  rcases swapToken_spec env f t a s with hsim | ⟨hsdk, hw, hc, ms, m, ob, p, tx,
    hms, hfind, hob, hp, hb, _⟩
  · rw [hsim]; exact ⟨rfl, rfl⟩
  · exfalso
    obtain ⟨_, _, ms', m', ob', hms', hfind', hob', hside⟩ := h4
    rw [hms] at hms'
    obtain rfl : ms = ms' := by injection hms'
    rw [hfind] at hfind'
    obtain rfl : m = m' := by injection hfind'
    rw [hob] at hob'
    obtain rfl : ob = ob' := by injection hob'
    have hnone : priceFor (swapIsBuy m (normalizeDenom t)) ob s = none := by
      rcases hside with ⟨hdir, hempty⟩ | ⟨hdir, hempty⟩ <;>
        simp [priceFor_eq_none_iff, hdir, hempty]
    rw [hnone] at hp; cases hp

/-- Witness for C10: a SELL-direction request (selling inj, the
market's base asset, for usdt) that falls back because the bid side is
empty still reports order side buy and the mock market id. -/
theorem c10_simulator_constants_witness :
    (swapToken
        ⟨true, true, some [⟨"m1", "inj", "usdt", 18, 6⟩], some ⟨[], [⟨5, 2⟩]⟩,
          true, some "0xabc", 3, "0xmock"⟩
        "inj" "usdt" 100 1).orderSide = "buy" ∧
      (swapToken
        ⟨true, true, some [⟨"m1", "inj", "usdt", 18, 6⟩], some ⟨[], [⟨5, 2⟩]⟩,
          true, some "0xabc", 3, "0xmock"⟩
        "inj" "usdt" 100 1).marketId = "mock-market-id" :=
  c10_simulator_constants.2
    ⟨true, true, some [⟨"m1", "inj", "usdt", 18, 6⟩], some ⟨[], [⟨5, 2⟩]⟩,
      true, some "0xabc", 3, "0xmock"⟩
    "inj" "usdt" 100 1
    ⟨rfl, rfl, [⟨"m1", "inj", "usdt", 18, 6⟩], ⟨"m1", "inj", "usdt", 18, 6⟩,
      ⟨[], [⟨5, 2⟩]⟩, rfl, by decide, rfl, Or.inr ⟨by decide, rfl⟩⟩

/-- C7: a swap-token call whose amount is nonpositive or whose
supplied slippage lies outside [0, 100] is rejected by the schema
validation before any orchestration stage: the handler returns the
validation-error response and produces no SwapResult, simulated or
real. -/
theorem c7_validation_rejects (env : SwapEnv) (a : SwapArgs)
    (h : a.amount ≤ 0 ∨ ∃ s, a.slippage = some s ∧ (s < 0 ∨ 100 < s)) :
    (∃ e, handleSwapTool env a = ToolOutcome.validationError e) ∧
      ∀ r, handleSwapTool env a ≠ ToolOutcome.swapResult r := by
  have herr : ∃ e, parseSwapArgs a = Except.error e := by
    by_cases h1 : a.fromDenom.length < 1
    · exact ⟨"fromDenom: String must contain at least 1 character",
        by simp [parseSwapArgs, h1]⟩
    · by_cases h2 : a.toDenom.length < 1
      · exact ⟨"toDenom: String must contain at least 1 character",
          by simp [parseSwapArgs, h1, h2]⟩
      · by_cases h3 : a.amount ≤ 0
        · exact ⟨"amount: Number must be greater than 0",
            by simp [parseSwapArgs, h1, h2, h3]⟩
        · rcases h with hamt | ⟨s, hsome, hout⟩
          · exact absurd hamt h3
          · rcases hout with hlt | hgt
            · exact ⟨"slippage: Number must be greater than or equal to 0",
                by simp [parseSwapArgs, h1, h2, h3, hsome, hlt]⟩
            · have hns : ¬ s < 0 := by linarith
              exact ⟨"slippage: Number must be less than or equal to 100",
                by simp [parseSwapArgs, h1, h2, h3, hsome, hns, hgt]⟩
  obtain ⟨e, he⟩ := herr
  refine ⟨⟨e, ?_⟩, ?_⟩
  · simp [handleSwapTool, he]
  · intro r
    simp [handleSwapTool, he]

/-- Witness for C7: amount -1 is rejected with a validation error. -/
theorem c7_validation_rejects_witness :
    (∃ e, handleSwapTool ⟨true, true, none, none, true, none, 3, "0xmock"⟩
        ⟨"inj", "usdt", -1, none⟩ = ToolOutcome.validationError e) ∧
      ∀ r, handleSwapTool ⟨true, true, none, none, true, none, 3, "0xmock"⟩
        ⟨"inj", "usdt", -1, none⟩ ≠ ToolOutcome.swapResult r :=
  c7_validation_rejects ⟨true, true, none, none, true, none, 3, "0xmock"⟩
    ⟨"inj", "usdt", -1, none⟩ (Or.inl (by norm_num))

/-! ### Binary64 model of the slippage-factor expressions

The expressions (1 + slippage / 100) on line 621 and
(1 - slippage / 100) on line 630 are evaluated in native JavaScript
number arithmetic (IEEE-754 binary64) before the resulting number is
handed to the decimal library by .times(...).  The definitions below
model that evaluation: division and subtraction are correctly rounded
to the nearest binary64 value, ties to even.  The decimal library is
modelled as multiplying exactly by the resulting binary64 value; the
library actually re-reads the number through its shortest decimal
representation, which for the input analysed below (slippage 90, where
the JavaScript value of 1 - 90 / 100 prints as 0.09999999999999998) is
likewise different from the exact rational 1/10, so the conclusions
drawn are insensitive to that re-reading. -/

/-- Fuel-driven floor of the base-two logarithm of a natural number;
the fuel only needs to exceed the logarithm, and callers pass the
number itself. -/
def log2Fuel : ℕ → ℕ → ℕ
  | 0, _ => 0
  | fuel + 1, n => if n ≤ 1 then 0 else log2Fuel fuel (n / 2) + 1

/-- Floor of the base-two logarithm of a natural number. -/
def natLog2 (n : ℕ) : ℕ := log2Fuel n n

/-- Ceiling of the base-two logarithm of a natural number: the least k
with n at most 2 to the k. -/
def natClog2 (n : ℕ) : ℕ := if n ≤ 1 then 0 else natLog2 (n - 1) + 1

/-- Binary exponent of a positive rational: the unique e with
2 to the e at most x, x below 2 to the e + 1 (meaningless 0 for
nonpositive input, which the call sites never produce). -/
def ratLog2 (x : ℚ) : ℤ :=
  if 1 ≤ x then (natLog2 ⌊x⌋.toNat : ℤ) else -(natClog2 ⌈x⁻¹⌉.toNat : ℤ)

/-- Round a rational to an integer, ties to even (the IEEE-754 default
rounding). -/
def roundTiesEven (x : ℚ) : ℤ :=
  if x - ⌊x⌋ < 1 / 2 then ⌊x⌋
  else if 1 / 2 < x - ⌊x⌋ then ⌊x⌋ + 1
  else if ⌊x⌋ % 2 = 0 then ⌊x⌋ else ⌊x⌋ + 1

/-- The nearest IEEE-754 binary64 value of a positive rational in the
normal range (round to nearest, ties to even): the mantissa is the
53-bit rounding of x scaled into the binade.  Nonpositive input
returns 0; overflow and subnormal underflow are ignored, which the
slippage factors (values between 0 and 101) never reach. -/
def f64round (x : ℚ) : ℚ :=
  if x ≤ 0 then 0
  else (roundTiesEven (x * 2 ^ (52 - ratLog2 x)) : ℚ) * 2 ^ (ratLog2 x - 52)

/-- JavaScript binary64 division (IEEE division is correctly
rounded). -/
def jsDiv (a b : ℚ) : ℚ := f64round (a / b)

/-- JavaScript binary64 subtraction. -/
def jsSub (a b : ℚ) : ℚ := f64round (a - b)

/-- JavaScript binary64 addition. -/
def jsAdd (a b : ℚ) : ℚ := f64round (a + b)

/-- The value of the JavaScript expression 1 + slippage / 100 of
line 621, as received by the decimal multiplication. -/
def buyFactorJS (slippage : ℚ) : ℚ := jsAdd 1 (jsDiv slippage 100)

/-- The value of the JavaScript expression 1 - slippage / 100 of
line 630, as received by the decimal multiplication. -/
def sellFactorJS (slippage : ℚ) : ℚ := jsSub 1 (jsDiv slippage 100)

/-- Line 630 with the binary64 semantics of the factor made explicit:
the decimal library multiplies the best bid by the binary64 value of
1 - slippage / 100. -/
def sellPriceJS (bestBid slippage : ℚ) : ℚ := bestBid * sellFactorJS slippage

/-- The order-book pricer of src/index.ts lines 610-631 with the
binary64 evaluation of the slippage factor made explicit: for a BUY
the first ask times the binary64 value of 1 + slippage / 100, for a
SELL the first bid times the binary64 value of 1 - slippage / 100; an
empty relevant side yields none.  This is the faithful pricer used by
claims C3, C5 and C9. -/
def priceForJS (isBuy : Bool) (ob : Orderbook) (slippage : ℚ) : Option ℚ :=
  if isBuy then
    match ob.sells with
    | [] => none
    | s :: _ => some (s.price * buyFactorJS slippage)
  else
    match ob.buys with
    | [] => none
    | b :: _ => some (b.price * sellFactorJS slippage)

/-- The faithful pricer and its exact-rational idealization agree on
when a price exists: failure depends only on the emptiness of the
relevant book side. -/
lemma priceForJS_eq_none_iff (b : Bool) (ob : Orderbook) (s : ℚ) :
    priceForJS b ob s = none ↔ priceFor b ob s = none := by
  cases b <;> simp only [priceForJS, priceFor, Bool.false_eq_true, if_false, if_true]
  · cases ob.buys <;> simp
  · cases ob.sells <;> simp

lemma ratLog2_nine_tenths : ratLog2 ((9 : ℚ) / 10) = -1 := by
  have hinv : ((9 : ℚ) / 10)⁻¹ = 10 / 9 := by norm_num
  have hceil : ⌈(10 : ℚ) / 9⌉ = 2 := by
    rw [Int.ceil_eq_iff]
    norm_num
  rw [ratLog2, if_neg (by norm_num), hinv, hceil]
  decide

lemma f64round_nine_tenths :
    f64round ((9 : ℚ) / 10) = 8106479329266893 / 9007199254740992 := by
  rw [f64round, if_neg (by norm_num), ratLog2_nine_tenths]
  have harg : (9 : ℚ) / 10 * 2 ^ ((52 : ℤ) - -1) = 40532396646334464 / 5 := by
    norm_num
  rw [harg]
  have hfl : ⌊(40532396646334464 : ℚ) / 5⌋ = 8106479329266892 := by
    rw [Int.floor_eq_iff]
    norm_num
  have hr : roundTiesEven ((40532396646334464 : ℚ) / 5) = 8106479329266893 := by
    rw [roundTiesEven, hfl]
    norm_num
  rw [hr]
  norm_num

lemma sellFactorJS_ninety :
    sellFactorJS 90 = 900719925474099 / 9007199254740992 := by
  have h1 : jsDiv 90 100 = 8106479329266893 / 9007199254740992 := by
    have h90 : (90 : ℚ) / 100 = 9 / 10 := by norm_num
    rw [jsDiv, h90, f64round_nine_tenths]
  rw [sellFactorJS, h1, jsSub]
  have h2 : (1 : ℚ) - 8106479329266893 / 9007199254740992 =
      900719925474099 / 9007199254740992 := by norm_num
  rw [h2]
  have hlog : ratLog2 ((900719925474099 : ℚ) / 9007199254740992) = -4 := by
    have hinv : ((900719925474099 : ℚ) / 9007199254740992)⁻¹ =
        9007199254740992 / 900719925474099 := by norm_num
    have hceil : ⌈(9007199254740992 : ℚ) / 900719925474099⌉ = 11 := by
      rw [Int.ceil_eq_iff]
      norm_num
    rw [ratLog2, if_neg (by norm_num), hinv, hceil]
    decide
  rw [f64round, if_neg (by norm_num), hlog]
  have harg : (900719925474099 : ℚ) / 9007199254740992 * 2 ^ ((52 : ℤ) - -4) =
      7205759403792792 := by norm_num
  rw [harg]
  have hfl : ⌊(7205759403792792 : ℚ)⌋ = 7205759403792792 := by
    rw [Int.floor_eq_iff]
    norm_num
  have hr : roundTiesEven ((7205759403792792 : ℚ)) = 7205759403792792 := by
    rw [roundTiesEven, hfl]
    norm_num
  rw [hr]
  norm_num

/-- C5 analysis: the conversion of the slippage percentage to a
multiplicative factor is performed in native binary64 floating point
(lines 621 and 630), not by exact rational scaling, and the computed
execution price can therefore differ from the exact rational result:
at slippage 90 the SELL factor received by the decimal multiplication
is 900719925474099 / 9007199254740992 (the binary64 value of
1 - 90 / 100, which prints as 0.09999999999999998), not the exact
1 - 90 / 100 = 1 / 10, and with best bid 1 the computed execution
price differs from the exact rational one. -/
theorem c5_slippage_factor_not_exact :
    sellFactorJS 90 ≠ 1 - (90 : ℚ) / 100 ∧
      sellPriceJS 1 90 ≠ 1 * (1 - (90 : ℚ) / 100) ∧
      sellFactorJS 90 = 900719925474099 / 9007199254740992 := by
  refine ⟨?_, ?_, sellFactorJS_ninety⟩
  · rw [sellFactorJS_ninety]
    norm_num
  · rw [sellPriceJS, sellFactorJS_ninety]
    norm_num

/-! ### Order properties of the binary64 rounding

These lemmas justify the amended pricing claims: the binary64 rounding
is monotone (so slippage still moves the execution price in the right
direction, weakly), but it is not injective (so the movement need not
be strict). -/

lemma roundTiesEven_ge_floor (x : ℚ) : ⌊x⌋ ≤ roundTiesEven x := by
  rw [roundTiesEven]
  split_ifs <;> omega

lemma roundTiesEven_le_floor_add_one (x : ℚ) : roundTiesEven x ≤ ⌊x⌋ + 1 := by
  rw [roundTiesEven]
  split_ifs <;> omega

lemma roundTiesEven_mono {x y : ℚ} (h : x ≤ y) :
    roundTiesEven x ≤ roundTiesEven y := by
  rcases lt_or_le ⌊x⌋ ⌊y⌋ with hf | hf
  · calc roundTiesEven x ≤ ⌊x⌋ + 1 := roundTiesEven_le_floor_add_one x
    _ ≤ ⌊y⌋ := by omega
    _ ≤ roundTiesEven y := roundTiesEven_ge_floor y
  · have hfe : ⌊x⌋ = ⌊y⌋ := le_antisymm (Int.floor_mono h) hf
    rw [roundTiesEven, roundTiesEven, hfe]
    split_ifs <;> first | omega | linarith

lemma log2Fuel_bounds (fuel : ℕ) : ∀ n : ℕ, 0 < n → n ≤ 2 ^ fuel →
    2 ^ log2Fuel fuel n ≤ n ∧ n < 2 ^ (log2Fuel fuel n + 1) := by
  induction fuel with
  | zero =>
    intro n h1 h2
    have h2' : n ≤ 1 := by simpa using h2
    have hn : n = 1 := by omega
    subst hn
    simp [log2Fuel]
  | succ fuel ih =>
    intro n h1 h2
    by_cases hn : n ≤ 1
    · have h1' : n = 1 := by omega
      subst h1'
      simp [log2Fuel]
    · have hpos : 0 < n / 2 := by omega
      have hle : n / 2 ≤ 2 ^ fuel := by
        have h2' : n ≤ 2 * 2 ^ fuel := by
          calc n ≤ 2 ^ (fuel + 1) := h2
          _ = 2 * 2 ^ fuel := by ring
        omega
      obtain ⟨hl, hr⟩ := ih (n / 2) hpos hle
      have hunfold : log2Fuel (fuel + 1) n = log2Fuel fuel (n / 2) + 1 := by
        simp [log2Fuel, hn]
      rw [hunfold]
      constructor
      · calc 2 ^ (log2Fuel fuel (n / 2) + 1) = 2 * 2 ^ log2Fuel fuel (n / 2) := by ring
        _ ≤ 2 * (n / 2) := by omega
        _ ≤ n := by omega
      · calc n < 2 * (n / 2 + 1) := by omega
        _ ≤ 2 * 2 ^ (log2Fuel fuel (n / 2) + 1) := by omega
        _ = 2 ^ (log2Fuel fuel (n / 2) + 1 + 1) := by ring

lemma natLog2_bounds {n : ℕ} (h : 0 < n) :
    2 ^ natLog2 n ≤ n ∧ n < 2 ^ (natLog2 n + 1) :=
  log2Fuel_bounds n n h (Nat.le_of_lt n.lt_two_pow)

lemma natClog2_bounds {n : ℕ} (h : 2 ≤ n) :
    2 ^ (natClog2 n - 1) < n ∧ n ≤ 2 ^ natClog2 n := by
  have h1 : 0 < n - 1 := by omega
  obtain ⟨hl, hr⟩ := natLog2_bounds h1
  have hcl : natClog2 n = natLog2 (n - 1) + 1 := by
    rw [natClog2, if_neg (by omega)]
  rw [hcl]
  constructor
  · have : natLog2 (n - 1) + 1 - 1 = natLog2 (n - 1) := by omega
    rw [this]
    omega
  · omega

lemma ratLog2_bounds {x : ℚ} (hx : 0 < x) :
    (2 : ℚ) ^ ratLog2 x ≤ x ∧ x < 2 ^ (ratLog2 x + 1) := by
  rw [ratLog2]
  by_cases h1 : 1 ≤ x
  · rw [if_pos h1]
    have hfl1 : 1 ≤ ⌊x⌋ := Int.le_floor.mpr (by exact_mod_cast h1)
    have hpos : 0 < ⌊x⌋.toNat := by omega
    obtain ⟨hl, hr⟩ := natLog2_bounds hpos
    have hfl_cast : ((⌊x⌋.toNat : ℕ) : ℚ) = ((⌊x⌋ : ℤ) : ℚ) := by
      have : ((⌊x⌋.toNat : ℕ) : ℤ) = ⌊x⌋ := Int.toNat_of_nonneg (by omega)
      exact_mod_cast congrArg (fun z : ℤ => (z : ℚ)) this
    constructor
    · calc (2 : ℚ) ^ ((natLog2 ⌊x⌋.toNat : ℕ) : ℤ)
          = ((2 ^ natLog2 ⌊x⌋.toNat : ℕ) : ℚ) := by
            rw [zpow_natCast]
            push_cast
            rfl
      _ ≤ ((⌊x⌋.toNat : ℕ) : ℚ) := by exact_mod_cast hl
      _ = ((⌊x⌋ : ℤ) : ℚ) := hfl_cast
      _ ≤ x := Int.floor_le x
    · calc x < ((⌊x⌋ : ℤ) : ℚ) + 1 := Int.lt_floor_add_one x
      _ = ((⌊x⌋.toNat : ℕ) : ℚ) + 1 := by rw [hfl_cast]
      _ ≤ ((2 ^ (natLog2 ⌊x⌋.toNat + 1) : ℕ) : ℚ) := by exact_mod_cast hr
      _ = (2 : ℚ) ^ ((natLog2 ⌊x⌋.toNat : ℕ) : ℤ) * 2 := by
        push_cast
        rw [pow_succ]
        norm_cast
      _ = 2 ^ ((natLog2 ⌊x⌋.toNat : ℕ) : ℤ) * 2 ^ (1 : ℤ) := by norm_num
      _ = 2 ^ (((natLog2 ⌊x⌋.toNat : ℕ) : ℤ) + 1) := by
        rw [← zpow_add₀ (two_ne_zero)]
  · rw [if_neg h1]
    push_neg at h1
    have hxinv_pos : 0 < x⁻¹ := inv_pos.mpr hx
    have hinv1 : 1 < x⁻¹ := (one_lt_inv₀ hx).2 h1
    have hceil1 : (1 : ℤ) < ⌈x⁻¹⌉ := by
      have h := Int.le_ceil x⁻¹
      have : (1 : ℚ) < (⌈x⁻¹⌉ : ℚ) := lt_of_lt_of_le hinv1 h
      exact_mod_cast this
    have h2n : 2 ≤ ⌈x⁻¹⌉.toNat := by omega
    obtain ⟨hl, hr⟩ := natClog2_bounds h2n
    have hC1 : 1 ≤ natClog2 ⌈x⁻¹⌉.toNat := by
      rw [natClog2, if_neg (by omega)]
      omega
    have hceil_cast : ((⌈x⁻¹⌉.toNat : ℕ) : ℚ) = ((⌈x⁻¹⌉ : ℤ) : ℚ) := by
      have : ((⌈x⁻¹⌉.toNat : ℕ) : ℤ) = ⌈x⁻¹⌉ := Int.toNat_of_nonneg (by omega)
      exact_mod_cast congrArg (fun z : ℤ => (z : ℚ)) this
    constructor
    · -- x⁻¹ ≤ 2 ^ C, hence 2 ^ (-C) ≤ x
      have hle : x⁻¹ ≤ ((2 ^ natClog2 ⌈x⁻¹⌉.toNat : ℕ) : ℚ) := by
        calc x⁻¹ ≤ ((⌈x⁻¹⌉ : ℤ) : ℚ) := Int.le_ceil x⁻¹
        _ = ((⌈x⁻¹⌉.toNat : ℕ) : ℚ) := hceil_cast.symm
        _ ≤ ((2 ^ natClog2 ⌈x⁻¹⌉.toNat : ℕ) : ℚ) := by exact_mod_cast hr
      have h2C : (0 : ℚ) < ((2 ^ natClog2 ⌈x⁻¹⌉.toNat : ℕ) : ℚ) := by positivity
      have hinv := inv_anti₀ hxinv_pos hle
      rw [inv_inv] at hinv
      calc (2 : ℚ) ^ (-((natClog2 ⌈x⁻¹⌉.toNat : ℕ) : ℤ))
          = (((2 ^ natClog2 ⌈x⁻¹⌉.toNat : ℕ) : ℚ))⁻¹ := by
            rw [zpow_neg, zpow_natCast]
            push_cast
            rfl
      _ ≤ x := hinv
    · -- 2 ^ (C - 1) < x⁻¹, hence x < 2 ^ (-C + 1)
      have hlt : ((2 ^ (natClog2 ⌈x⁻¹⌉.toNat - 1) : ℕ) : ℚ) < x⁻¹ := by
        have hstep : ((2 ^ (natClog2 ⌈x⁻¹⌉.toNat - 1) : ℕ) : ℤ) + 1 ≤ ⌈x⁻¹⌉ := by
          have : (2 ^ (natClog2 ⌈x⁻¹⌉.toNat - 1) : ℕ) + 1 ≤ ⌈x⁻¹⌉.toNat := by omega
          omega
        have hceil_lt : ((⌈x⁻¹⌉ : ℤ) : ℚ) < x⁻¹ + 1 := Int.ceil_lt_add_one x⁻¹
        have : (((2 ^ (natClog2 ⌈x⁻¹⌉.toNat - 1) : ℕ) : ℤ) : ℚ) + 1 ≤ ((⌈x⁻¹⌉ : ℤ) : ℚ) := by
          exact_mod_cast hstep
        push_cast at this ⊢
        linarith
      have h2C1 : (0 : ℚ) < ((2 ^ (natClog2 ⌈x⁻¹⌉.toNat - 1) : ℕ) : ℚ) := by positivity
      have hxlt := inv_strictAnti₀ h2C1 hlt
      rw [inv_inv] at hxlt
      calc x < (((2 ^ (natClog2 ⌈x⁻¹⌉.toNat - 1) : ℕ) : ℚ))⁻¹ := hxlt
      _ = (2 : ℚ) ^ (-(((natClog2 ⌈x⁻¹⌉.toNat - 1 : ℕ) : ℤ))) := by
        rw [zpow_neg, zpow_natCast]
        push_cast
        rfl
      _ = 2 ^ (-((natClog2 ⌈x⁻¹⌉.toNat : ℕ) : ℤ) + 1) := by
        congr 1
        have : ((natClog2 ⌈x⁻¹⌉.toNat - 1 : ℕ) : ℤ) =
            ((natClog2 ⌈x⁻¹⌉.toNat : ℕ) : ℤ) - 1 := by omega
        rw [this]
        ring

lemma f64round_pos_bounds {x : ℚ} (hx : 0 < x) :
    (2 : ℚ) ^ ratLog2 x ≤ f64round x ∧ f64round x ≤ 2 ^ (ratLog2 x + 1) := by
  obtain ⟨hl, hr⟩ := ratLog2_bounds hx
  rw [f64round, if_neg (not_le.mpr hx)]
  have h2pos : (0 : ℚ) < (2 : ℚ) ^ ((52 : ℤ) - ratLog2 x) := by positivity
  have harg_lo : (2 : ℚ) ^ (52 : ℤ) ≤ x * 2 ^ ((52 : ℤ) - ratLog2 x) := by
    calc (2 : ℚ) ^ (52 : ℤ) = 2 ^ ratLog2 x * 2 ^ ((52 : ℤ) - ratLog2 x) := by
          rw [← zpow_add₀ (two_ne_zero)]
          ring_nf
    _ ≤ x * 2 ^ ((52 : ℤ) - ratLog2 x) := mul_le_mul_of_nonneg_right hl h2pos.le
  have harg_hi : x * 2 ^ ((52 : ℤ) - ratLog2 x) < 2 ^ (53 : ℤ) := by
    calc x * 2 ^ ((52 : ℤ) - ratLog2 x)
        < 2 ^ (ratLog2 x + 1) * 2 ^ ((52 : ℤ) - ratLog2 x) :=
          mul_lt_mul_of_pos_right hr h2pos
    _ = 2 ^ (53 : ℤ) := by
          rw [← zpow_add₀ (two_ne_zero)]
          ring_nf
  have hcast52 : (((2 ^ 52 : ℤ)) : ℚ) = (2 : ℚ) ^ (52 : ℤ) := by norm_num
  have hcast53 : (((2 ^ 53 : ℤ)) : ℚ) = (2 : ℚ) ^ (53 : ℤ) := by norm_num
  have hfl_lo : (2 ^ 52 : ℤ) ≤ ⌊x * 2 ^ ((52 : ℤ) - ratLog2 x)⌋ := by
    rw [Int.le_floor, hcast52]
    exact harg_lo
  have hfl_hi : ⌊x * 2 ^ ((52 : ℤ) - ratLog2 x)⌋ < (2 ^ 53 : ℤ) := by
    rw [Int.floor_lt, hcast53]
    exact harg_hi
  have hrte_lo : (2 ^ 52 : ℤ) ≤ roundTiesEven (x * 2 ^ ((52 : ℤ) - ratLog2 x)) :=
    le_trans hfl_lo (roundTiesEven_ge_floor _)
  have hrte_hi : roundTiesEven (x * 2 ^ ((52 : ℤ) - ratLog2 x)) ≤ (2 ^ 53 : ℤ) :=
    le_trans (roundTiesEven_le_floor_add_one _) (by omega)
  have h2pos' : (0 : ℚ) < (2 : ℚ) ^ (ratLog2 x - 52) := by positivity
  constructor
  · calc (2 : ℚ) ^ ratLog2 x = 2 ^ (52 : ℤ) * 2 ^ (ratLog2 x - 52) := by
          rw [← zpow_add₀ (two_ne_zero)]
          ring_nf
    _ ≤ ((roundTiesEven (x * 2 ^ ((52 : ℤ) - ratLog2 x)) : ℤ) : ℚ) *
          2 ^ (ratLog2 x - 52) := by
          refine mul_le_mul_of_nonneg_right ?_ h2pos'.le
          rw [← hcast52]
          exact_mod_cast hrte_lo
  · calc ((roundTiesEven (x * 2 ^ ((52 : ℤ) - ratLog2 x)) : ℤ) : ℚ) *
          2 ^ (ratLog2 x - 52)
        ≤ (2 : ℚ) ^ (53 : ℤ) * 2 ^ (ratLog2 x - 52) := by
          refine mul_le_mul_of_nonneg_right ?_ h2pos'.le
          rw [← hcast53]
          exact_mod_cast hrte_hi
    _ = 2 ^ (ratLog2 x + 1) := by
          rw [← zpow_add₀ (two_ne_zero)]
          ring_nf

lemma f64round_nonneg (x : ℚ) : 0 ≤ f64round x := by
  by_cases hx : x ≤ 0
  · rw [f64round, if_pos hx]
  · have h := (f64round_pos_bounds (not_le.mp hx)).1
    have h2 : (0 : ℚ) < 2 ^ ratLog2 x := by positivity
    linarith

lemma f64round_le_two_mul {x : ℚ} (hx : 0 < x) : f64round x ≤ 2 * x := by
  obtain ⟨_, h2⟩ := f64round_pos_bounds hx
  obtain ⟨h3, _⟩ := ratLog2_bounds hx
  calc f64round x ≤ 2 ^ (ratLog2 x + 1) := h2
  _ = 2 * 2 ^ ratLog2 x := by
        rw [zpow_add_one₀ (two_ne_zero)]
        ring
  _ ≤ 2 * x := by linarith

lemma f64round_mono {x y : ℚ} (hx : 0 ≤ x) (hxy : x ≤ y) :
    f64round x ≤ f64round y := by
  rcases eq_or_lt_of_le hx with heq | hxpos
  · have hx0 : x ≤ 0 := le_of_eq heq.symm
    rw [f64round, if_pos hx0]
    exact f64round_nonneg y
  · have hypos : 0 < y := lt_of_lt_of_le hxpos hxy
    by_cases he : ratLog2 x = ratLog2 y
    · rw [f64round, f64round, if_neg (not_le.mpr hxpos), if_neg (not_le.mpr hypos), he]
      have harg : x * 2 ^ ((52 : ℤ) - ratLog2 y) ≤ y * 2 ^ ((52 : ℤ) - ratLog2 y) :=
        mul_le_mul_of_nonneg_right hxy (by positivity)
      have hrte := roundTiesEven_mono harg
      have hcast : ((roundTiesEven (x * 2 ^ ((52 : ℤ) - ratLog2 y)) : ℤ) : ℚ) ≤
          ((roundTiesEven (y * 2 ^ ((52 : ℤ) - ratLog2 y)) : ℤ) : ℚ) := by
        exact_mod_cast hrte
      exact mul_le_mul_of_nonneg_right hcast (by positivity)
    · have hle : ratLog2 x ≤ ratLog2 y := by
        obtain ⟨hxl, _⟩ := ratLog2_bounds hxpos
        obtain ⟨_, hyr⟩ := ratLog2_bounds hypos
        have h2 : (2 : ℚ) ^ ratLog2 x < 2 ^ (ratLog2 y + 1) :=
          lt_of_le_of_lt (le_trans hxl hxy) hyr
        have := (zpow_lt_zpow_iff_right₀ (by norm_num : (1 : ℚ) < 2)).mp h2
        omega
      have hlt : ratLog2 x < ratLog2 y := lt_of_le_of_ne hle he
      obtain ⟨_, hxup⟩ := f64round_pos_bounds hxpos
      obtain ⟨hylo, _⟩ := f64round_pos_bounds hypos
      calc f64round x ≤ 2 ^ (ratLog2 x + 1) := hxup
      _ ≤ 2 ^ ratLog2 y := zpow_le_zpow_right₀ (by norm_num) (by omega)
      _ ≤ f64round y := hylo

/-- Adding a nonnegative quantity of at most half an ulp to 1 rounds
back to exactly 1 in binary64 (the tie at exactly half an ulp goes to
the even mantissa, which is 1). -/
lemma f64round_one_add_small {d : ℚ} (h0 : 0 ≤ d) (h1 : d ≤ 1 / 2 ^ 53) :
    f64round (1 + d) = 1 := by
  have hd1 : d < 1 := lt_of_le_of_lt h1 (by norm_num)
  have hxpos : (0 : ℚ) < 1 + d := by linarith
  have hfl : ⌊(1 : ℚ) + d⌋ = 1 := by
    rw [Int.floor_eq_iff]
    push_cast
    constructor <;> linarith
  have hlog : ratLog2 (1 + d) = 0 := by
    rw [ratLog2, if_pos (by linarith : (1 : ℚ) ≤ 1 + d), hfl]
    decide
  rw [f64round, if_neg (not_le.mpr hxpos), hlog]
  have h52 : ((2 : ℚ)) ^ ((52 : ℤ) - 0) = 4503599627370496 := by norm_num
  rw [h52]
  have hfl2 : ⌊((1 : ℚ) + d) * 4503599627370496⌋ = 4503599627370496 := by
    rw [Int.floor_eq_iff]
    push_cast
    constructor <;> nlinarith
  have hrte : roundTiesEven (((1 : ℚ) + d) * 4503599627370496) = 4503599627370496 := by
    rw [roundTiesEven, hfl2]
    have hfrac : ((1 : ℚ) + d) * 4503599627370496 - ((4503599627370496 : ℤ) : ℚ) =
        d * 4503599627370496 := by
      push_cast
      ring
    have hfrac_le : d * 4503599627370496 ≤ 1 / 2 := by nlinarith
    split_ifs with hc1 hc2 hc3
    · rfl
    · exfalso
      rw [hfrac] at hc2
      linarith
    · rfl
    · exfalso
      omega
  rw [hrte]
  norm_num

lemma f64round_one : f64round 1 = 1 := by
  have h := f64round_one_add_small (le_refl (0 : ℚ)) (by norm_num)
  simpa using h

/-- C3 (amended): the pricer requires at least one ask for a BUY and
at least one bid for a SELL (an empty relevant side yields no price,
and the orchestrator then falls back to simulation); on a book whose
relevant side is sorted best-first, the computed execution price is
the best (lowest) ask times the binary64 value of 1 + slippage / 100
for a BUY, and the best (highest) bid times the binary64 value of
1 - slippage / 100 for a SELL.  The original claim stated the factors
as the exact rationals 1 + s/100 and 1 - s/100; the source evaluates
them in native binary64 (lines 621 and 630), which differs at some
slippage values - see c3_pricer_counterexample and C5. -/
theorem c3_pricer :
    (∀ (ob : Orderbook) (s : ℚ),
      (priceForJS true ob s = none ↔ ob.sells = []) ∧
        (priceForJS false ob s = none ↔ ob.buys = [])) ∧
    (∀ (ob : Orderbook) (s : ℚ) (e : OrderbookEntry) (rest : List OrderbookEntry),
      ob.sells = e :: rest →
      List.Sorted (· ≤ ·) ((e :: rest).map OrderbookEntry.price) →
      priceForJS true ob s = some (e.price * buyFactorJS s) ∧
        ∀ e' ∈ ob.sells, e.price ≤ e'.price) ∧
    (∀ (ob : Orderbook) (s : ℚ) (e : OrderbookEntry) (rest : List OrderbookEntry),
      ob.buys = e :: rest →
      List.Sorted (· ≥ ·) ((e :: rest).map OrderbookEntry.price) →
      priceForJS false ob s = some (e.price * sellFactorJS s) ∧
        ∀ e' ∈ ob.buys, e'.price ≤ e.price) ∧
    (∀ (env : SwapEnv) (f t : String) (a s : ℚ),
      stage4Failure env f t → (swapToken env f t a s).isSimulated = true) := by
  refine ⟨?_, ?_, ?_, ?_⟩
  · intro ob s
    constructor
    · rw [priceForJS_eq_none_iff]
      simpa using priceFor_eq_none_iff true ob s
    · rw [priceForJS_eq_none_iff]
      simpa using priceFor_eq_none_iff false ob s
  · intro ob s e rest hsells hsort
    refine ⟨by simp [priceForJS, hsells], ?_⟩
    intro e' he'
    rw [hsells] at he'
    rcases List.mem_cons.mp he' with rfl | hmem
    · exact le_refl _
    · exact (List.sorted_cons.mp hsort).1 e'.price
        (List.mem_map_of_mem OrderbookEntry.price hmem)
  · intro ob s e rest hbuys hsort
    refine ⟨by simp [priceForJS, hbuys], ?_⟩
    intro e' he'
    rw [hbuys] at he'
    rcases List.mem_cons.mp he' with rfl | hmem
    · exact le_refl _
    · exact (List.sorted_cons.mp hsort).1 e'.price
        (List.mem_map_of_mem OrderbookEntry.price hmem)
  · intro env f t a s h4
    obtain ⟨hsdk, hw, ms, m, ob, hms, hfind, hob, hside⟩ := h4
    rcases swapToken_spec env f t a s with hsim | ⟨_, _, _, ms', m', ob', p, tx,
      hms', hfind', hob', hp, _, _⟩
    · rw [hsim]; rfl
    · rw [hms] at hms'
      obtain rfl : ms = ms' := by injection hms'
      rw [hfind] at hfind'
      obtain rfl : m = m' := by injection hfind'
      rw [hob] at hob'
      obtain rfl : ob = ob' := by injection hob'
      have hnone : priceFor (swapIsBuy m (normalizeDenom t)) ob s = none := by
        rcases hside with ⟨hd, hempty⟩ | ⟨hd, hempty⟩ <;>
          simp [priceFor_eq_none_iff, hd, hempty]
      rw [hnone] at hp
      exact absurd hp (by simp)

/-- Counterexample to C3 as originally stated: at slippage 90 on a
book with best bid 1, the computed execution price (the bid times the
binary64 value of 1 - 90 / 100) differs from the exact
1 times (1 - 90 / 100) = 1/10 the claim asserts. -/
theorem c3_pricer_counterexample :
    priceForJS false ⟨[⟨1, 1⟩], [⟨1, 1⟩]⟩ 90 ≠ some ((1 : ℚ) * (1 - 90 / 100)) := by
  have hval : priceForJS false ⟨[⟨1, 1⟩], [⟨1, 1⟩]⟩ 90 =
      some ((1 : ℚ) * sellFactorJS 90) := rfl
  rw [hval, sellFactorJS_ninety]
  simp only [ne_eq, Option.some.injEq]
  norm_num

/-- Witness for C3: a concrete two-level book gives the binary64
slipped best ask and best bid, and an empty-ask book makes a BUY
orchestration run return a simulated result. -/
theorem c3_pricer_witness :
    (priceForJS true ⟨[⟨4, 1⟩], [⟨5, 2⟩, ⟨6, 1⟩]⟩ 1 = some (5 * buyFactorJS 1) ∧
      ∀ e' ∈ (Orderbook.mk [⟨4, 1⟩] [⟨5, 2⟩, ⟨6, 1⟩]).sells,
        (OrderbookEntry.mk 5 2).price ≤ e'.price) ∧
    (priceForJS false ⟨[⟨4, 1⟩, ⟨3, 2⟩], [⟨5, 2⟩]⟩ 1 = some (4 * sellFactorJS 1) ∧
      ∀ e' ∈ (Orderbook.mk [⟨4, 1⟩, ⟨3, 2⟩] [⟨5, 2⟩]).buys,
        e'.price ≤ (OrderbookEntry.mk 4 1).price) ∧
    (swapToken
        ⟨true, true, some [⟨"m1", "inj", "usdt", 18, 6⟩], some ⟨[⟨4, 1⟩], []⟩,
          true, some "0xabc", 3, "0xmock"⟩
        "usdt" "inj" 100 1).isSimulated = true := by
  refine ⟨?_, ?_, ?_⟩
  · simpa using c3_pricer.2.1 ⟨[⟨4, 1⟩], [⟨5, 2⟩, ⟨6, 1⟩]⟩ 1 ⟨5, 2⟩ [⟨6, 1⟩] rfl
      (by norm_num [List.sorted_cons])
  · simpa using c3_pricer.2.2.1 ⟨[⟨4, 1⟩, ⟨3, 2⟩], [⟨5, 2⟩]⟩ 1 ⟨4, 1⟩ [⟨3, 2⟩] rfl
      (by norm_num [List.sorted_cons])
  · exact c3_pricer.2.2.2
      ⟨true, true, some [⟨"m1", "inj", "usdt", 18, 6⟩], some ⟨[⟨4, 1⟩], []⟩,
        true, some "0xabc", 3, "0xmock"⟩
      "usdt" "inj" 100 1
      ⟨rfl, rfl, [⟨"m1", "inj", "usdt", 18, 6⟩], ⟨"m1", "inj", "usdt", 18, 6⟩,
        ⟨[⟨4, 1⟩], []⟩, rfl, by decide, rfl, Or.inl ⟨by decide, rfl⟩⟩

/-- C9 (amended): on a fixed order book whose relevant best price is
positive, for slippage percentages within the validated range,
increasing the slippage never decreases the computed execution price
of a BUY and never increases that of a SELL.  The movement is weak,
not strict: the binary64 evaluation of the factor can collapse
distinct slippage percentages to the same factor
(c9_price_monotone_counterexample), so the strict monotonicity of the
original claim is false of the program. -/
theorem c9_price_monotone (bs ts : List OrderbookEntry) (a b : OrderbookEntry)
    (s1 s2 : ℚ) (ha : 0 < a.price) (hb : 0 < b.price)
    (h0 : 0 ≤ s1) (h12 : s1 ≤ s2) (h100 : s2 ≤ 100) :
    (∃ p1 p2, priceForJS true ⟨bs, a :: ts⟩ s1 = some p1 ∧
      priceForJS true ⟨bs, a :: ts⟩ s2 = some p2 ∧ p1 ≤ p2) ∧
    (∃ q1 q2, priceForJS false ⟨b :: bs, ts⟩ s1 = some q1 ∧
      priceForJS false ⟨b :: bs, ts⟩ s2 = some q2 ∧ q2 ≤ q1) := by
  have hd0 : (0 : ℚ) ≤ s1 / 100 := div_nonneg h0 (by norm_num)
  have hdiv : s1 / 100 ≤ s2 / 100 := by linarith
  have hdmono : jsDiv s1 100 ≤ jsDiv s2 100 := f64round_mono hd0 hdiv
  have hd1 : 0 ≤ jsDiv s1 100 := f64round_nonneg _
  have hd2le : jsDiv s2 100 ≤ 1 := by
    have hs20 : (0 : ℚ) ≤ s2 / 100 := le_trans hd0 hdiv
    have hle1 : s2 / 100 ≤ 1 := by linarith
    calc jsDiv s2 100 = f64round (s2 / 100) := rfl
    _ ≤ f64round 1 := f64round_mono hs20 hle1
    _ = 1 := f64round_one
  constructor
  · refine ⟨a.price * buyFactorJS s1, a.price * buyFactorJS s2, rfl, rfl, ?_⟩
    have hfac : buyFactorJS s1 ≤ buyFactorJS s2 := by
      rw [buyFactorJS, buyFactorJS, jsAdd, jsAdd]
      exact f64round_mono (by linarith) (by linarith)
    exact mul_le_mul_of_nonneg_left hfac ha.le
  · refine ⟨b.price * sellFactorJS s1, b.price * sellFactorJS s2, rfl, rfl, ?_⟩
    have hfac : sellFactorJS s2 ≤ sellFactorJS s1 := by
      rw [sellFactorJS, sellFactorJS, jsSub, jsSub]
      exact f64round_mono (by linarith) (by linarith)
    exact mul_le_mul_of_nonneg_left hfac hb.le

/-- Counterexample to C9 as originally stated: strict monotonicity
fails on the program, because distinct positive slippage percentages
can round to the same binary64 factor.  25 / 2 ^ 58 is strictly below
25 / 2 ^ 57, yet on best ask 1 both produce execution price exactly 1:
the binary64 value of 1 + s / 100 is 1 for both (the increment is
below half an ulp of 1). -/
theorem c9_price_monotone_counterexample :
    (25 : ℚ) / 2 ^ 58 < 25 / 2 ^ 57 ∧
      priceForJS true ⟨[], [⟨1, 1⟩]⟩ ((25 : ℚ) / 2 ^ 58) = some 1 ∧
      priceForJS true ⟨[], [⟨1, 1⟩]⟩ ((25 : ℚ) / 2 ^ 57) = some 1 := by
  have hb1 : buyFactorJS ((25 : ℚ) / 2 ^ 58) = 1 := by
    rw [buyFactorJS, jsAdd, jsDiv]
    have h58 : (25 : ℚ) / 2 ^ 58 / 100 = 1 / 2 ^ 60 := by norm_num
    rw [h58]
    refine f64round_one_add_small (f64round_nonneg _) ?_
    calc f64round (1 / 2 ^ 60) ≤ 2 * (1 / 2 ^ 60) := f64round_le_two_mul (by norm_num)
    _ ≤ 1 / 2 ^ 53 := by norm_num
  have hb2 : buyFactorJS ((25 : ℚ) / 2 ^ 57) = 1 := by
    rw [buyFactorJS, jsAdd, jsDiv]
    have h57 : (25 : ℚ) / 2 ^ 57 / 100 = 1 / 2 ^ 59 := by norm_num
    rw [h57]
    refine f64round_one_add_small (f64round_nonneg _) ?_
    calc f64round (1 / 2 ^ 59) ≤ 2 * (1 / 2 ^ 59) := f64round_le_two_mul (by norm_num)
    _ ≤ 1 / 2 ^ 53 := by norm_num
  refine ⟨by norm_num, ?_, ?_⟩
  · simp [priceForJS, hb1]
  · simp [priceForJS, hb2]

/-- Witness for C9: slippage 1 versus slippage 2 on best ask 5 and
best bid 4. -/
theorem c9_price_monotone_witness :
    (∃ p1 p2, priceForJS true ⟨[⟨4, 1⟩], [⟨5, 2⟩]⟩ 1 = some p1 ∧
      priceForJS true ⟨[⟨4, 1⟩], [⟨5, 2⟩]⟩ 2 = some p2 ∧ p1 ≤ p2) ∧
    (∃ q1 q2, priceForJS false ⟨[⟨4, 1⟩], [⟨5, 2⟩]⟩ 1 = some q1 ∧
      priceForJS false ⟨[⟨4, 1⟩], [⟨5, 2⟩]⟩ 2 = some q2 ∧ q2 ≤ q1) :=
  c9_price_monotone [⟨4, 1⟩] [] ⟨5, 2⟩ ⟨4, 1⟩ 1 2 (by norm_num) (by norm_num)
    (by norm_num) (by norm_num) (by norm_num)

section ScratchChecks

example : normalizeDenom "INJ" = "inj" := by decide
example : normalizeDenom "factory/abc/def" = "factory/abc/def" := by decide
example : normalizeDenom "peggy0x123" = "peggy0x123" := by decide
example :
    findMarket [⟨"m1", "inj", "usdt", 18, 6⟩] "usdt" "inj" = some ⟨"m1", "inj", "usdt", 18, 6⟩ := by
  decide
example : quantityFor true 100 2 18 6 = 5 * 10 ^ 19 := by norm_num [quantityFor]

end ScratchChecks
